import Mathlib

/-!
Verification of the timeline-synchronization and regional-pressure engine of the
pressure-sole dashboard.  The definitions below are shallow embeddings of the
TypeScript source: JavaScript numbers are modelled as rationals, JavaScript
objects / `Map`s as association lists with the same lookup and insertion
semantics, and the stable `Array.prototype.sort` as `List.mergeSort` with a
`≤`-comparator (ES2019 guarantees sort stability).
-/

/- ### Data model -/

/-- One foot-ground contact event, as in the events JSON (`ContactEvent`). -/
structure ContactEvent where
  stance_id : Int
  foot : String
  ic_ts_ms : ℚ
  to_ts_ms : ℚ
  ct_s : ℚ
  peak_ts_ms : ℚ
deriving DecidableEq

/-- One CoP trajectory sample (`CoPPoint`): local/global timestamp, a position,
a total-pressure scalar, and the named sensor channel magnitudes (a JS record,
modelled as an association list). -/
structure CoPPoint where
  t_ms : ℚ
  x : ℚ
  y : ℚ
  sumW : ℚ
  sensors : List (String × ℚ)
deriving DecidableEq

/-- The fields of a stance (`StanceMetric`) that the alignment core reads. -/
structure StanceMetric where
  stance_id : Int
  foot : String
  phase : String
  cop_trajectory : List CoPPoint
deriving DecidableEq

/-- A phase overlay window (`PhaseMarker`); `stop` models the `end` field
(`end` is a Lean keyword). -/
structure PhaseMarker where
  name : String
  start : ℚ
  stop : ℚ
  color : String
deriving DecidableEq

/-- The result of `calculateCoP`: force-weighted centroid and total force. -/
structure CoPResult where
  x : ℚ
  y : ℚ
  force : ℚ
deriving DecidableEq

/-- The playback clock state of `PressureHeatmapSVG`: `isPlaying`,
`currentTime` and `playbackSpeed`. -/
structure ClockState where
  isPlaying : Bool
  currentTime : ℚ
  playbackSpeed : ℚ
deriving DecidableEq

/- ### Event index -/

/-- The event index: `Map<number, ContactEvent>` keyed by stance id, as an
association list in insertion order. -/
abbrev EventsMap := List (Int × ContactEvent)

/-- Models `Map.set`: overwrite in place when the key exists (keeping its insertion
position), otherwise append at the end. -/
def mapSet (m : EventsMap) (k : Int) (v : ContactEvent) : EventsMap :=
  if m.any (fun p => p.1 == k) then
    m.map (fun p => if p.1 == k then (k, v) else p)
  else m ++ [(k, v)]

/-- The `eventsMap` construction: `[...leftEvents, ...rightEvents].forEach(evt =>
eventsMap.set(evt.stance_id, evt))`. -/
def buildEventsMap (evts : List ContactEvent) : EventsMap :=
  evts.foldl (fun m e => mapSet m e.stance_id e) []

/-- Models `eventsMap.get(stanceId)` — `none` stands for `undefined`. -/
def mapGet (m : EventsMap) (k : Int) : Option ContactEvent :=
  (m.find? (fun p => p.1 == k)).map (fun p => p.2)

/-- String-keyed record access `record[key]` (for sensor magnitudes and sensor
centroids) — `none` models `undefined`. -/
def recordGet {α : Type} (m : List (String × α)) (k : String) : Option α :=
  (m.find? (fun p => p.1 == k)).map (fun p => p.2)

/- ### Global zero -/

/-- One step of the running-minimum loop `if (evt.ic_ts_ms < minTime) minTime =
evt.ic_ts_ms`, with `none` standing for the `Infinity` sentinel. -/
def minStep (acc : Option ℚ) (v : ℚ) : Option ℚ :=
  match acc with
  | none => some v
  | some m => if v < m then some v else some m

/-- Running minimum of a list of rationals, `none` when the list is empty. -/
def foldMin (vals : List ℚ) : Option ℚ :=
  vals.foldl minStep none

/-- The `minTime` of `DeliveryDetail`: the minimum `ic_ts_ms` over the values of the
events map, defaulting to `0` when the map is empty (`minTime === Infinity`). -/
def globalZero (evts : List ContactEvent) : ℚ :=
  (foldMin ((buildEventsMap evts).map (fun p => p.2.ic_ts_ms))).getD 0

/-- Modelled from the spec wording of the zero invariant (for comparison with
the code's `globalZero`): the minimum `ic_ts_ms` restricted to the events
actually referenced by some stance of the delivery, `0` when there are none. -/
def globalZeroOfReferenced (stances : List StanceMetric) (evts : List ContactEvent) : ℚ :=
  (foldMin ((stances.filterMap
    (fun s => mapGet (buildEventsMap evts) s.stance_id)).map (fun e => e.ic_ts_ms))).getD 0

/- ### Timeline alignment (`processFoot` in `DeliveryDetail`) -/

/-- The spread `{...pt, t_ms: pt.t_ms + offset}` — shift a sample onto the global
timeline, carrying every other field unchanged. -/
def shiftPoint (offset : ℚ) (pt : CoPPoint) : CoPPoint :=
  { pt with t_ms := pt.t_ms + offset }

/-- One iteration of the `stances.forEach` loop in `processFoot`: skip the
stance when the event lookup fails, otherwise push its shifted trajectory. -/
def footStep (emap : EventsMap) (z : ℚ) (acc : List CoPPoint) (stance : StanceMetric) :
    List CoPPoint :=
  match mapGet emap stance.stance_id with
  | none => acc
  | some event => acc ++ stance.cop_trajectory.map (shiftPoint (event.ic_ts_ms - z))

/-- The `allPoints` array before sorting: the concatenation, in stance order, of every
shifted trajectory whose stance has a matching event. -/
def concatPoints (emap : EventsMap) (z : ℚ) (stances : List StanceMetric) : List CoPPoint :=
  stances.foldl (footStep emap z) []

/-- The comparator `(a, b) => a.t_ms - b.t_ms` of the stable `Array.sort`. -/
def copLE (a b : CoPPoint) : Bool :=
  decide (a.t_ms ≤ b.t_ms)

/-- Models `processFoot`: concatenate the aligned samples of all stances with a
matching event, then stable-sort ascending by global time. -/
def processFoot (emap : EventsMap) (z : ℚ) (stances : List StanceMetric) : List CoPPoint :=
  (concatPoints emap z stances).mergeSort copLE

/- ### Phase markers -/

/-- Models `(eventsMap.get(s.stance_id)?.ic_ts_ms || 0) - minTime`. -/
def phaseStartTime (emap : EventsMap) (z : ℚ) (s : StanceMetric) : ℚ :=
  ((mapGet emap s.stance_id).map (fun e => e.ic_ts_ms)).getD 0 - z

/-- Models `(eventsMap.get(s.stance_id)?.to_ts_ms || 0) - minTime`. -/
def phaseEndTime (emap : EventsMap) (z : ℚ) (s : StanceMetric) : ℚ :=
  ((mapGet emap s.stance_id).map (fun e => e.to_ts_ms)).getD 0 - z

/-- The marker block of `DeliveryDetail` for one phase name: no marker when no
stance of either foot carries the phase, otherwise `Math.min(...startTimes)`
and `Math.max(...endTimes)` over the matching stances. -/
def phaseMarker (phaseName color : String) (stancesAll : List StanceMetric)
    (emap : EventsMap) (z : ℚ) : Option PhaseMarker :=
  match stancesAll.filter (fun s => s.phase == phaseName) with
  | [] => none
  | m :: ms =>
    some { name := phaseName,
           start := (ms.map (phaseStartTime emap z)).foldl min (phaseStartTime emap z m),
           stop := (ms.map (phaseEndTime emap z)).foldl max (phaseEndTime emap z m),
           color := color }

/-- The `markers` list pushed by `DeliveryDetail` (BFC then FFC). -/
def phaseMarkers (stancesAll : List StanceMetric) (emap : EventsMap) (z : ℚ) :
    List PhaseMarker :=
  (phaseMarker "BFC" "#FF6B35" stancesAll emap z).toList ++
  (phaseMarker "FFC" "#2196F3" stancesAll emap z).toList

/- ### Regional aggregation -/

/-- The `SENSOR_REGIONS` table of `PressureHeatmapSVG` (the same channel sets are
hardcoded per region in `RegionalPressureTimeline`). -/
def SENSOR_REGIONS : List (String × List String) :=
  [("ForeFoot", ["S1", "S2"]),
   ("UpperMid", ["S3", "S4", "S5"]),
   ("LowerMid", ["S6"]),
   ("Heel", ["S7", "S8"])]

/-- Models `sensors.reduce((acc, sensor) => acc + (point.sensors[sensor] || 0), 0)` —
the per-region sum of a sample's configured channel magnitudes. -/
def regionSum (sensors : List (String × ℚ)) (channels : List String) : ℚ :=
  channels.foldl (fun acc ch => acc + ((recordGet sensors ch).getD 0)) 0

/- ### Center-of-pressure calculator (`calculateCoP`) -/

/-- One iteration of the `Object.keys(sensors).forEach` accumulation loop of
`calculateCoP`: a channel contributes iff its magnitude is positive and it has
a centroid.  Accumulator components: weighted x, weighted y, total force. -/
def copStep (cents : List (String × ℚ × ℚ)) (acc : ℚ × ℚ × ℚ) (kv : String × ℚ) :
    ℚ × ℚ × ℚ :=
  if 0 < kv.2 then
    match recordGet cents kv.1 with
    | some c => (acc.1 + c.1 * kv.2, acc.2.1 + c.2 * kv.2, acc.2.2 + kv.2)
    | none => acc
  else acc

/-- The accumulated `(totalWeightedX, totalWeightedY, totalForce)`. -/
def copAccum (cents : List (String × ℚ × ℚ)) (sensors : List (String × ℚ)) : ℚ × ℚ × ℚ :=
  sensors.foldl (copStep cents) (0, 0, 0)

/-- Models `calculateCoP`: `null` when the total force is zero, otherwise the
force-weighted centroid and the total force. -/
def calculateCoP (cents : List (String × ℚ × ℚ)) (sensors : List (String × ℚ)) :
    Option CoPResult :=
  let acc := copAccum cents sensors
  if acc.2.2 = 0 then none
  else some { x := acc.1 / acc.2.2, y := acc.2.1 / acc.2.2, force := acc.2.2 }

/- ### Closest-sample resolver (`findClosestPoint`) -/

/-- Models `Math.abs`. -/
def jsAbs (q : ℚ) : ℚ :=
  if q < 0 then -q else q

/-- Models `findClosestPoint`: `null` on an empty series or when the target time is
more than 50 ms outside the series range, otherwise the first sample (in array
order) whose absolute time difference from the target is strictly below
25 ms. -/
def findClosestPoint : List CoPPoint → ℚ → Option CoPPoint
  | [], _ => none
  | f :: rest, time =>
    if time < f.t_ms - 50 then none
    else if time > ((f :: rest).getLast (List.cons_ne_nil f rest)).t_ms + 50 then none
    else (f :: rest).find? (fun p => decide (jsAbs (p.t_ms - time) < 25))

/- ### Playback / scrub clock (`PressureHeatmapSVG` state) -/

/-- The range-input `onChange` handler: `setIsPlaying(false);
setCurrentTime(parseInt(e.target.value))`.  The browser constrains the range
value to `[0, maxTime]` (attributes `min="0" max={maxTime}`). -/
def scrub (s : ClockState) (t : ℚ) : ClockState :=
  { s with isPlaying := false, currentTime := t }

/-- The Reset button: `setIsPlaying(false); setCurrentTime(0)`. -/
def resetClock (s : ClockState) : ClockState :=
  { s with isPlaying := false, currentTime := 0 }

/-- One animation-frame step: while playing, advance by
`deltaTime * playbackSpeed`; on reaching `maxTime`, stop and rewind to 0.  The
animation loop is cancelled while not playing, so the step is the identity
then. -/
def tick (maxTime : ℚ) (s : ClockState) (deltaTime : ℚ) : ClockState :=
  if s.isPlaying then
    let nextTime := s.currentTime + deltaTime * s.playbackSpeed
    if nextTime ≥ maxTime then { s with isPlaying := false, currentTime := 0 }
    else { s with currentTime := nextTime }
  else s

/- ### Concrete example data used by the claims -/

/-- A delivery used as counterexample input for the zero invariant: one stance
(id 1) and two events (ids 1 and 2, the earlier contact on the unreferenced
one). -/
def cexStancesC1 : List StanceMetric :=
  [{ stance_id := 1, foot := "Left", phase := "BFC", cop_trajectory := [] }]

/-- Events for the C1 counterexample delivery. -/
def cexEventsC1 : List ContactEvent :=
  [{ stance_id := 1, foot := "Left", ic_ts_ms := 1000, to_ts_ms := 1100, ct_s := 0, peak_ts_ms := 1050 },
   { stance_id := 2, foot := "Right", ic_ts_ms := 500, to_ts_ms := 600, ct_s := 0, peak_ts_ms := 550 }]

/-- A one-stance delivery whose stance has no event, for the C6 witness. -/
def orphanStance : StanceMetric :=
  { stance_id := 99, foot := "Left", phase := "BFC",
    cop_trajectory := [{ t_ms := 0, x := 1, y := 2, sumW := 3, sensors := [("S1", 3)] }] }

/-- Events for the concrete C7 scenario: first contact at 1000 ms, the stance
of interest at 1200 ms, so its offset is 200 ms. -/
def eventsC7 : List ContactEvent :=
  [{ stance_id := 1, foot := "Left", ic_ts_ms := 1000, to_ts_ms := 1100, ct_s := 0, peak_ts_ms := 1050 },
   { stance_id := 2, foot := "Right", ic_ts_ms := 1200, to_ts_ms := 1300, ct_s := 0, peak_ts_ms := 1250 }]

/-- The C7 stance: local samples at 0, 5 and 10 ms. -/
def stanceC7 : StanceMetric :=
  { stance_id := 2, foot := "Right", phase := "FFC",
    cop_trajectory :=
      [{ t_ms := 0, x := 0, y := 0, sumW := 1, sensors := [("S1", 1)] },
       { t_ms := 5, x := 0, y := 0, sumW := 2, sensors := [("S1", 2)] },
       { t_ms := 10, x := 0, y := 0, sumW := 3, sensors := [("S1", 3)] }] }

/-- The matching event of the C7 stance. -/
def eventC7 : ContactEvent :=
  { stance_id := 2, foot := "Right", ic_ts_ms := 1200, to_ts_ms := 1300, ct_s := 0, peak_ts_ms := 1250 }

/-- Centroids for the concrete C3 computation: channel A at (0,0), channel B at
(10,0). -/
def centsC3 : List (String × ℚ × ℚ) :=
  [("A", (0, 0)), ("B", (10, 0))]

/-- Magnitudes for the concrete C3 computation: A at 10, B at 30. -/
def sensorsC3 : List (String × ℚ) :=
  [("A", 10), ("B", 30)]

/-- The expected CoP of the concrete C3 computation: x = 300/40 = 7.5, force
40. -/
def copResultC3 : CoPResult :=
  { x := 15/2, y := 0, force := 40 }

/-- The C4 example series: samples with times 0, 100 and 200 ms. -/
def pointC4a : CoPPoint :=
  { t_ms := 0, x := 0, y := 0, sumW := 1, sensors := [("S1", 1)] }

/-- Second sample of the C4 example series. -/
def pointC4b : CoPPoint :=
  { t_ms := 100, x := 0, y := 0, sumW := 2, sensors := [("S1", 2)] }

/-- Third sample of the C4 example series. -/
def pointC4c : CoPPoint :=
  { t_ms := 200, x := 0, y := 0, sumW := 3, sensors := [("S1", 3)] }

/-- The C4 example series `[{t:0},{t:100},{t:200}]`. -/
def seriesC4 : List CoPPoint :=
  [pointC4a, pointC4b, pointC4c]

/-- Stances for the concrete C5 scenario: two FFC stances (ids 10, 11) and one
BFC stance (id 12). -/
def stancesC5 : List StanceMetric :=
  [{ stance_id := 10, foot := "Left", phase := "FFC", cop_trajectory := [] },
   { stance_id := 11, foot := "Right", phase := "FFC", cop_trajectory := [] },
   { stance_id := 12, foot := "Right", phase := "BFC", cop_trajectory := [] }]

/-- Events for the concrete C5 scenario; relative to `globalZero = 1000` the
two FFC stances have windows [50, 90] and [70, 110]. -/
def eventsC5 : List ContactEvent :=
  [{ stance_id := 10, foot := "Left", ic_ts_ms := 1050, to_ts_ms := 1090, ct_s := 0, peak_ts_ms := 1060 },
   { stance_id := 11, foot := "Right", ic_ts_ms := 1070, to_ts_ms := 1110, ct_s := 0, peak_ts_ms := 1080 },
   { stance_id := 12, foot := "Right", ic_ts_ms := 1000, to_ts_ms := 1040, ct_s := 0, peak_ts_ms := 1010 }]

/-- The marker expected for phase FFC in the C5 scenario. -/
def markerC5 : PhaseMarker :=
  { name := "FFC", start := 50, stop := 110, color := "#2196F3" }

/-- A concrete sample for the C8 witness. -/
def sensorsC8 : List (String × ℚ) :=
  [("S1", 5), ("S2", 7), ("S3", 100)]

/-- A concrete playing clock state for the C9 witness. -/
def clockC9 : ClockState :=
  { isPlaying := true, currentTime := 500, playbackSpeed := 1 }

/- ### Generic facts about the running minimum / maximum -/

theorem foldl_min_le_init (xs : List ℚ) (m : ℚ) : xs.foldl min m ≤ m := by
  induction xs generalizing m with
  | nil => simp
  | cons x xs ih => exact le_trans (ih (min m x)) (min_le_left m x)

theorem foldl_min_le_mem (xs : List ℚ) (m : ℚ) : ∀ v ∈ xs, xs.foldl min m ≤ v := by
  induction xs generalizing m with
  | nil => simp
  | cons x xs ih =>
    intro v hv
    rcases List.mem_cons.mp hv with h | h
    · subst h
      exact le_trans (foldl_min_le_init xs (min m v)) (min_le_right m v)
    · exact ih (min m x) v h

theorem foldl_min_mem (xs : List ℚ) (m : ℚ) : xs.foldl min m = m ∨ xs.foldl min m ∈ xs := by
  induction xs generalizing m with
  | nil => left; rfl
  | cons x xs ih =>
    rcases ih (min m x) with h | h
    · rw [List.foldl_cons, h]
      rcases le_total m x with hmx | hxm
      · left; exact min_eq_left hmx
      · right; rw [min_eq_right hxm]; exact List.mem_cons_self x xs
    · right; exact List.mem_cons_of_mem x h

theorem foldl_max_init_le (xs : List ℚ) (m : ℚ) : m ≤ xs.foldl max m := by
  induction xs generalizing m with
  | nil => simp
  | cons x xs ih => exact le_trans (le_max_left m x) (ih (max m x))

theorem foldl_max_mem_le (xs : List ℚ) (m : ℚ) : ∀ v ∈ xs, v ≤ xs.foldl max m := by
  induction xs generalizing m with
  | nil => simp
  | cons x xs ih =>
    intro v hv
    rcases List.mem_cons.mp hv with h | h
    · subst h
      exact le_trans (le_max_right m v) (foldl_max_init_le xs (max m v))
    · exact ih (max m x) v h

theorem foldl_max_mem (xs : List ℚ) (m : ℚ) : xs.foldl max m = m ∨ xs.foldl max m ∈ xs := by
  induction xs generalizing m with
  | nil => left; rfl
  | cons x xs ih =>
    rcases ih (max m x) with h | h
    · rw [List.foldl_cons, h]
      rcases le_total m x with hmx | hxm
      · right; rw [max_eq_right hmx]; exact List.mem_cons_self x xs
      · left; exact max_eq_left hxm
    · right; exact List.mem_cons_of_mem x h

theorem foldMin_go (vs : List ℚ) (v : ℚ) :
    vs.foldl minStep (some v) = some (vs.foldl min v) := by
  induction vs generalizing v with
  | nil => rfl
  | cons x xs ih =>
    have hstep : minStep (some v) x = some (min v x) := by
      simp only [minStep]
      rcases lt_or_ge x v with h | h
      · rw [if_pos h, min_eq_right (le_of_lt h)]
      · rw [if_neg (not_lt.mpr h), min_eq_left h]
    rw [List.foldl_cons, List.foldl_cons, hstep, ih (min v x)]

theorem foldMin_cons_eq (v : ℚ) (vs : List ℚ) :
    foldMin (v :: vs) = some (vs.foldl min v) := by
  rw [foldMin, List.foldl_cons]
  exact foldMin_go vs v

theorem foldMin_characterization (vals : List ℚ) :
    (vals = [] → foldMin vals = none) ∧
    (∀ m, foldMin vals = some m → m ∈ vals ∧ ∀ v ∈ vals, m ≤ v) := by
  constructor
  · intro h; subst h; rfl
  · intro m hm
    cases vals with
    | nil => simp [foldMin] at hm
    | cons v vs =>
      rw [foldMin_cons_eq] at hm
      injection hm with hm
      subst hm
      constructor
      · rcases foldl_min_mem vs v with h | h
        · rw [h]; exact List.mem_cons_self v vs
        · exact List.mem_cons_of_mem v h
      · intro w hw
        rcases List.mem_cons.mp hw with h | h
        · subst h; exact foldl_min_le_init vs w
        · exact foldl_min_le_mem vs v w h

/- ### Claim C1 -/

/-- Claim C1, as stated, is false: the code's global zero is the minimum
`ic_ts_ms` over the whole event index, not over the events referenced by the
delivery's stances.  Concretely, with one stance referencing only the event at
1000 ms while an unreferenced event sits at 500 ms, the code yields 500, not
1000. -/
theorem globalZero_ne_referenced_min :
    globalZero cexEventsC1 = 500 ∧
    globalZeroOfReferenced cexStancesC1 cexEventsC1 = 1000 ∧
    globalZero cexEventsC1 ≠ globalZeroOfReferenced cexStancesC1 cexEventsC1 := by
  refine ⟨by decide, by decide, by decide⟩

/-- Claim C1 (amended): for every delivery, the global zero equals the minimum
`ic_ts_ms` over all entries of the delivery's event index (every Left/Right
event, deduplicated by stance id, last write winning) — whether or not an entry
is referenced by a stance — and equals 0 when no events exist. -/
theorem globalZero_is_min_of_eventsMap (evts : List ContactEvent) :
    (buildEventsMap evts = [] → globalZero evts = 0) ∧
    (buildEventsMap evts ≠ [] →
      (∃ p ∈ buildEventsMap evts, globalZero evts = p.2.ic_ts_ms) ∧
      (∀ p ∈ buildEventsMap evts, globalZero evts ≤ p.2.ic_ts_ms)) := by
  constructor
  · intro h
    rw [globalZero, h]
    rfl
  · intro h
    have hne : (buildEventsMap evts).map (fun p => p.2.ic_ts_ms) ≠ [] := by
      simpa using h
    cases hvals : (buildEventsMap evts).map (fun p => p.2.ic_ts_ms) with
    | nil => exact absurd hvals hne
    | cons v vs =>
      have hsome : foldMin ((buildEventsMap evts).map (fun p => p.2.ic_ts_ms)) =
          some (vs.foldl min v) := by rw [hvals, foldMin_cons_eq]
      have hgz : globalZero evts = vs.foldl min v := by
        rw [globalZero, hsome]; rfl
      have hchar := (foldMin_characterization
        ((buildEventsMap evts).map (fun p => p.2.ic_ts_ms))).2 (vs.foldl min v) hsome
      constructor
      · have hmem : vs.foldl min v ∈ (buildEventsMap evts).map (fun p => p.2.ic_ts_ms) :=
          hchar.1
        rcases List.mem_map.mp hmem with ⟨p, hp, hpe⟩
        exact ⟨p, hp, by rw [hgz, ← hpe]⟩
      · intro p hp
        have : p.2.ic_ts_ms ∈ (buildEventsMap evts).map (fun p => p.2.ic_ts_ms) :=
          List.mem_map.mpr ⟨p, hp, rfl⟩
        rw [hgz]
        exact hchar.2 p.2.ic_ts_ms this

/-- Witness for the amended C1 theorem at the counterexample delivery: the event
index is non-empty and the global zero (500) is an attained lower bound of its
`ic_ts_ms` values. -/
theorem globalZero_is_min_of_eventsMap_witness :
    buildEventsMap cexEventsC1 ≠ [] ∧
    ((∃ p ∈ buildEventsMap cexEventsC1, globalZero cexEventsC1 = p.2.ic_ts_ms) ∧
     (∀ p ∈ buildEventsMap cexEventsC1, globalZero cexEventsC1 ≤ p.2.ic_ts_ms)) :=
  ⟨by decide, (globalZero_is_min_of_eventsMap cexEventsC1).2 (by decide)⟩

/- ### Claim C2 -/

theorem copLE_trans (a b c : CoPPoint) : copLE a b → copLE b c → copLE a c := by
  simp only [copLE, decide_eq_true_eq]
  exact le_trans

theorem copLE_total (a b : CoPPoint) : copLE a b || copLE b a := by
  simp only [copLE, Bool.or_eq_true, decide_eq_true_eq]
  exact le_total a.t_ms b.t_ms

/-- Claim C2: for every input (any stance ordering, any local timestamps) each
foot's aligned output is non-decreasing in `t_ms`, and the samples at any fixed
global time `k` appear in exactly their concatenation (input) order, so the
output is a deterministic function of the input. -/
theorem processFoot_sorted_stable (emap : EventsMap) (z : ℚ) (stances : List StanceMetric) :
    (processFoot emap z stances).Pairwise (fun a b => a.t_ms ≤ b.t_ms) ∧
    ∀ k : ℚ, (processFoot emap z stances).filter (fun q => decide (q.t_ms = k)) =
      (concatPoints emap z stances).filter (fun q => decide (q.t_ms = k)) := by
  constructor
  · have h := List.sorted_mergeSort copLE_trans copLE_total (concatPoints emap z stances)
    exact h.imp (fun hab => by simpa [copLE] using hab)
  · intro k
    set l := concatPoints emap z stances with hl
    set p : CoPPoint → Bool := fun q => decide (q.t_ms = k) with hp
    have hpair : (l.filter p).Pairwise (fun a b => copLE a b = true) := by
      apply List.pairwise_of_forall_mem_list
      intro a ha b hb
      have ha' : a.t_ms = k := by
        have := (List.mem_filter.mp ha).2
        simpa [hp] using this
      have hb' : b.t_ms = k := by
        have := (List.mem_filter.mp hb).2
        simpa [hp] using this
      simp [copLE, ha', hb']
    have hsub : List.Sublist (l.filter p) (l.mergeSort copLE) :=
      List.sublist_mergeSort copLE_trans copLE_total hpair (List.filter_sublist l)
    have hsub2 : List.Sublist ((l.filter p).filter p) ((l.mergeSort copLE).filter p) :=
      hsub.filter p
    have hidem : (l.filter p).filter p = l.filter p := by
      rw [List.filter_filter]
      apply List.filter_congr
      intro a _
      simp
    rw [hidem] at hsub2
    have hperm : List.Perm ((l.mergeSort copLE).filter p) (l.filter p) :=
      (List.mergeSort_perm l copLE).filter p
    have hlen : (l.filter p).length = ((l.mergeSort copLE).filter p).length :=
      hperm.length_eq.symm
    exact (hsub2.eq_of_length hlen).symm

/- ### Claim C6 -/

/-- Claim C6: a stance whose id has no matching event contributes no samples
and leaves the aligned output of the remaining stances untouched (no error). -/
theorem processFoot_drops_missing (emap : EventsMap) (z : ℚ)
    (s₁ s₂ : List StanceMetric) (bad : StanceMetric)
    (h : mapGet emap bad.stance_id = none) :
    processFoot emap z (s₁ ++ bad :: s₂) = processFoot emap z (s₁ ++ s₂) := by
  have hstep : ∀ acc : List CoPPoint, footStep emap z acc bad = acc := by
    intro acc
    simp [footStep, h]
  have hconcat : concatPoints emap z (s₁ ++ bad :: s₂) = concatPoints emap z (s₁ ++ s₂) := by
    simp only [concatPoints, List.foldl_append, List.foldl_cons, hstep]
  rw [processFoot, processFoot, hconcat]

/-- Witness for C6 on concrete data: inserting a stance with no matching event
between the stances of the C1 counterexample delivery changes nothing. -/
theorem processFoot_drops_missing_witness :
    mapGet (buildEventsMap cexEventsC1) orphanStance.stance_id = none ∧
    processFoot (buildEventsMap cexEventsC1) 500 (cexStancesC1 ++ orphanStance :: []) =
      processFoot (buildEventsMap cexEventsC1) 500 (cexStancesC1 ++ []) :=
  ⟨by decide,
   processFoot_drops_missing (buildEventsMap cexEventsC1) 500 cexStancesC1 [] orphanStance
     (by decide)⟩

/- ### Claim C7 -/

/-- Claim C7: a stance with a matching event contributes exactly its samples
shifted by `event.ic_ts_ms − globalZero`: each shifted sample's `t_ms` is the
local time plus that offset, and every other field is carried unchanged. -/
theorem stance_offset_applied (emap : EventsMap) (z : ℚ) (s : StanceMetric)
    (e : ContactEvent) (h : mapGet emap s.stance_id = some e) :
    concatPoints emap z [s] = s.cop_trajectory.map (shiftPoint (e.ic_ts_ms - z)) ∧
    ∀ pt ∈ s.cop_trajectory,
      (shiftPoint (e.ic_ts_ms - z) pt).t_ms = pt.t_ms + (e.ic_ts_ms - z) ∧
      (shiftPoint (e.ic_ts_ms - z) pt).x = pt.x ∧
      (shiftPoint (e.ic_ts_ms - z) pt).y = pt.y ∧
      (shiftPoint (e.ic_ts_ms - z) pt).sumW = pt.sumW ∧
      (shiftPoint (e.ic_ts_ms - z) pt).sensors = pt.sensors := by
  constructor
  · simp [concatPoints, footStep, h]
  · intro pt _
    simp [shiftPoint]

/-- Witness for C7 on the concrete scenario of the claim: `ic_ts_ms = 1200`,
`globalZero = 1000`, local samples `[0, 5, 10]` — the aligned global times are
`[200, 205, 210]`. -/
theorem stance_offset_applied_witness :
    mapGet (buildEventsMap eventsC7) stanceC7.stance_id = some eventC7 ∧
    globalZero eventsC7 = 1000 ∧
    concatPoints (buildEventsMap eventsC7) (globalZero eventsC7) [stanceC7] =
      stanceC7.cop_trajectory.map (shiftPoint (eventC7.ic_ts_ms - globalZero eventsC7)) ∧
    (processFoot (buildEventsMap eventsC7) (globalZero eventsC7) [stanceC7]).map
      (fun q => q.t_ms) = [200, 205, 210] :=
  ⟨by decide, by decide,
   (stance_offset_applied (buildEventsMap eventsC7) (globalZero eventsC7) stanceC7 eventC7
     (by decide)).1,
   by norm_num [processFoot, List.mergeSort, concatPoints, footStep, mapGet, buildEventsMap,
     mapSet, shiftPoint, copLE, globalZero, foldMin, minStep, eventsC7, stanceC7, eventC7]⟩

/- ### Facts about the CoP accumulator -/

theorem copStep_skip (cents : List (String × ℚ × ℚ)) (acc : ℚ × ℚ × ℚ) (kv : String × ℚ)
    (h : kv.2 ≤ 0 ∨ recordGet cents kv.1 = none) : copStep cents acc kv = acc := by
  rcases h with h | h
  · simp [copStep, not_lt.mpr h]
  · simp only [copStep, h]
    split <;> rfl

theorem copStep_force_le (cents : List (String × ℚ × ℚ)) (acc : ℚ × ℚ × ℚ) (kv : String × ℚ) :
    acc.2.2 ≤ (copStep cents acc kv).2.2 := by
  by_cases h : 0 < kv.2
  · simp only [copStep, if_pos h]
    cases recordGet cents kv.1 with
    | none => exact le_refl _
    | some c => exact le_add_of_nonneg_right (le_of_lt h)
  · simp [copStep, h]

theorem copFold_force_le (cents : List (String × ℚ × ℚ)) (sensors : List (String × ℚ))
    (acc : ℚ × ℚ × ℚ) : acc.2.2 ≤ (sensors.foldl (copStep cents) acc).2.2 := by
  induction sensors generalizing acc with
  | nil => exact le_refl _
  | cons kv rest ih =>
    exact le_trans (copStep_force_le cents acc kv) (ih (copStep cents acc kv))

theorem copAccum_force_nonneg (cents : List (String × ℚ × ℚ)) (sensors : List (String × ℚ)) :
    0 ≤ (copAccum cents sensors).2.2 :=
  copFold_force_le cents sensors (0, 0, 0)

theorem copFold_inert (cents : List (String × ℚ × ℚ)) (sensors : List (String × ℚ))
    (h : ∀ kv ∈ sensors, kv.2 ≤ 0 ∨ recordGet cents kv.1 = none) (acc : ℚ × ℚ × ℚ) :
    sensors.foldl (copStep cents) acc = acc := by
  induction sensors generalizing acc with
  | nil => rfl
  | cons kv rest ih =>
    rw [List.foldl_cons, copStep_skip cents acc kv (h kv (List.mem_cons_self kv rest))]
    exact ih (fun kv' h' => h kv' (List.mem_cons_of_mem kv h')) acc

/- ### Claim C3 -/

/-- Claim C3: `calculateCoP` returns `none` exactly when the accumulated total
force is zero — in particular when every channel magnitude is zero, and when
every positive-magnitude channel lacks a centroid entry — and otherwise returns
the force-weighted centroid `{x: weightedX/totalForce, y: weightedY/totalForce,
force: totalForce}`.  Concretely, centroids (0,0) and (10,0) with magnitudes 10
and 30 yield x = 15/2 = 7.5 and force = 40. -/
theorem calculateCoP_spec :
    (∀ (cents : List (String × ℚ × ℚ)) (sensors : List (String × ℚ)),
      (calculateCoP cents sensors = none ↔ (copAccum cents sensors).2.2 = 0) ∧
      ((∀ kv ∈ sensors, kv.2 = 0) → calculateCoP cents sensors = none) ∧
      ((∀ kv ∈ sensors, 0 < kv.2 → recordGet cents kv.1 = none) →
        calculateCoP cents sensors = none) ∧
      ((copAccum cents sensors).2.2 ≠ 0 →
        calculateCoP cents sensors = some
          { x := (copAccum cents sensors).1 / (copAccum cents sensors).2.2,
            y := (copAccum cents sensors).2.1 / (copAccum cents sensors).2.2,
            force := (copAccum cents sensors).2.2 })) ∧
    calculateCoP centsC3 sensorsC3 = some copResultC3 := by
  constructor
  · intro cents sensors
    refine ⟨?_, ?_, ?_, ?_⟩
    · constructor
      · intro h
        by_contra hne
        rw [calculateCoP] at h
        simp only [if_neg hne] at h
        exact Option.noConfusion h
      · intro h
        rw [calculateCoP]
        simp only [if_pos h]
    · intro h
      have hz : copAccum cents sensors = (0, 0, 0) := by
        apply copFold_inert
        intro kv hkv
        exact Or.inl (le_of_eq (h kv hkv))
      rw [calculateCoP, hz]
      rfl
    · intro h
      have hz : copAccum cents sensors = (0, 0, 0) := by
        apply copFold_inert
        intro kv hkv
        by_cases hp : 0 < kv.2
        · exact Or.inr (h kv hkv hp)
        · exact Or.inl (not_lt.mp hp)
      rw [calculateCoP, hz]
      rfl
    · intro h
      rw [calculateCoP]
      simp only [if_neg h]
  · norm_num +decide [calculateCoP, copAccum, copStep, recordGet, centsC3, sensorsC3, copResultC3]

/-- Witness for the hypotheses of C3 at the concrete computation of the claim:
total force 40 is non-zero and `calculateCoP` returns the weighted centroid. -/
theorem calculateCoP_spec_witness :
    (copAccum centsC3 sensorsC3).2.2 ≠ 0 ∧
    calculateCoP centsC3 sensorsC3 = some
      { x := (copAccum centsC3 sensorsC3).1 / (copAccum centsC3 sensorsC3).2.2,
        y := (copAccum centsC3 sensorsC3).2.1 / (copAccum centsC3 sensorsC3).2.2,
        force := (copAccum centsC3 sensorsC3).2.2 } :=
  ⟨by norm_num +decide [copAccum, copStep, recordGet, centsC3, sensorsC3],
   (calculateCoP_spec.1 centsC3 sensorsC3).2.2.2
     (by norm_num +decide [copAccum, copStep, recordGet, centsC3, sensorsC3])⟩

/- ### Claim C10 -/

/-- Claim C10: whenever `calculateCoP` returns a result its force is strictly
positive (so the divisions by `totalForce` never see a zero divisor), and a
channel with non-positive magnitude or without a centroid entry contributes
nothing to any accumulator. -/
theorem calculateCoP_safety :
    (∀ (cents : List (String × ℚ × ℚ)) (sensors : List (String × ℚ)) (r : CoPResult),
      calculateCoP cents sensors = some r → 0 < r.force) ∧
    (∀ (cents : List (String × ℚ × ℚ)) (s₁ s₂ : List (String × ℚ)) (kv : String × ℚ),
      kv.2 ≤ 0 ∨ recordGet cents kv.1 = none →
      copAccum cents (s₁ ++ kv :: s₂) = copAccum cents (s₁ ++ s₂) ∧
      calculateCoP cents (s₁ ++ kv :: s₂) = calculateCoP cents (s₁ ++ s₂)) := by
  constructor
  · intro cents sensors r h
    rw [calculateCoP] at h
    by_cases hz : (copAccum cents sensors).2.2 = 0
    · simp only [if_pos hz] at h
      exact Option.noConfusion h
    · simp only [if_neg hz] at h
      have hr : r.force = (copAccum cents sensors).2.2 := by
        injection h with h
        rw [← h]
      rw [hr]
      exact lt_of_le_of_ne (copAccum_force_nonneg cents sensors) (Ne.symm hz)
  · intro cents s₁ s₂ kv h
    have hacc : copAccum cents (s₁ ++ kv :: s₂) = copAccum cents (s₁ ++ s₂) := by
      simp only [copAccum, List.foldl_append, List.foldl_cons]
      rw [copStep_skip cents (s₁.foldl (copStep cents) (0, 0, 0)) kv h]
    exact ⟨hacc, by rw [calculateCoP, calculateCoP, hacc]⟩

/-- Witness for C10: at the concrete C3 computation the returned force is
positive, and appending an inert channel ("Z" with magnitude −5) changes
neither the accumulator nor the result. -/
theorem calculateCoP_safety_witness :
    (calculateCoP centsC3 sensorsC3 = some copResultC3 ∧ 0 < copResultC3.force) ∧
    (((("Z" : String), (-5 : ℚ)).2 ≤ 0 ∨ recordGet centsC3 ("Z", (-5 : ℚ)).1 = none) ∧
     copAccum centsC3 (sensorsC3 ++ ("Z", (-5 : ℚ)) :: []) = copAccum centsC3 (sensorsC3 ++ []) ∧
     calculateCoP centsC3 (sensorsC3 ++ ("Z", (-5 : ℚ)) :: []) =
       calculateCoP centsC3 (sensorsC3 ++ [])) := by
  have hres : calculateCoP centsC3 sensorsC3 = some copResultC3 := by
    norm_num +decide [calculateCoP, copAccum, copStep, recordGet, centsC3, sensorsC3, copResultC3]
  have hinert : ((("Z" : String), (-5 : ℚ)).2 ≤ 0 ∨ recordGet centsC3 ("Z", (-5 : ℚ)).1 = none) := by
    left
    norm_num
  exact ⟨⟨hres, calculateCoP_safety.1 centsC3 sensorsC3 copResultC3 hres⟩,
    ⟨hinert, calculateCoP_safety.2 centsC3 sensorsC3 [] ("Z", (-5 : ℚ)) hinert⟩⟩

/- ### Claim C4 -/

theorem jsAbs_eq_abs (q : ℚ) : jsAbs q = |q| := by
  rw [jsAbs]
  rcases lt_or_ge q 0 with h | h
  · rw [if_pos h, abs_of_neg h]
  · rw [if_neg (not_lt.mpr h), abs_of_nonneg h]

theorem find?_first {α : Type} (p : α → Bool) :
    ∀ (l : List α) (b : α), l.find? p = some b →
      p b = true ∧ ∃ pre post, l = pre ++ b :: post ∧ ∀ a ∈ pre, p a = false := by
  intro l
  induction l with
  | nil => intro b h; exact absurd h (by simp)
  | cons x xs ih =>
    intro b h
    by_cases hx : p x = true
    · rw [List.find?_cons_of_pos xs hx] at h
      injection h with h
      subst h
      exact ⟨hx, [], xs, rfl, by simp⟩
    · rw [List.find?_cons_of_neg xs (by simpa using hx)] at h
      rcases ih b h with ⟨hb, pre, post, hsplit, hpre⟩
      refine ⟨hb, x :: pre, post, by rw [hsplit]; rfl, ?_⟩
      intro a ha
      rcases List.mem_cons.mp ha with h' | h'
      · subst h'; simpa using hx
      · exact hpre a h'

/-- Claim C4: `findClosestPoint` returns `none` on an empty series; `none` when
the target is more than 50 ms before the first or after the last sample's time;
otherwise it scans the (pre-sorted) series in order and returns the first
sample whose absolute time difference from the target is strictly below 25 ms,
or `none` when no sample qualifies.  Concretely, on times [0, 100, 200] it
returns `none` at target 300 and the t = 200 sample at target 210. -/
theorem findClosestPoint_spec :
    (∀ t, findClosestPoint [] t = none) ∧
    (∀ (f : CoPPoint) (rest : List CoPPoint) (t : ℚ), t < f.t_ms - 50 →
      findClosestPoint (f :: rest) t = none) ∧
    (∀ (f : CoPPoint) (rest : List CoPPoint) (t : ℚ),
      t > ((f :: rest).getLast (List.cons_ne_nil f rest)).t_ms + 50 →
      findClosestPoint (f :: rest) t = none) ∧
    (∀ (f : CoPPoint) (rest : List CoPPoint) (t : ℚ), ¬ t < f.t_ms - 50 →
      ¬ t > ((f :: rest).getLast (List.cons_ne_nil f rest)).t_ms + 50 →
      ((findClosestPoint (f :: rest) t = none ↔
          ∀ p ∈ f :: rest, ¬ jsAbs (p.t_ms - t) < 25) ∧
       (∀ q, findClosestPoint (f :: rest) t = some q →
          jsAbs (q.t_ms - t) < 25 ∧
          ∃ pre post, f :: rest = pre ++ q :: post ∧
            ∀ p ∈ pre, ¬ jsAbs (p.t_ms - t) < 25))) ∧
    findClosestPoint seriesC4 300 = none ∧
    findClosestPoint seriesC4 210 = some pointC4c := by
  have hout : ∀ (f : CoPPoint) (rest : List CoPPoint) (t : ℚ),
      t > ((f :: rest).getLast (List.cons_ne_nil f rest)).t_ms + 50 →
      findClosestPoint (f :: rest) t = none := by
    intro f rest t h
    rw [findClosestPoint]
    by_cases h1 : t < f.t_ms - 50
    · rw [if_pos h1]
    · rw [if_neg h1, if_pos h]
  refine ⟨fun t => rfl, ?_, hout, ?_, ?_, ?_⟩
  · intro f rest t h
    rw [findClosestPoint, if_pos h]
  · intro f rest t h1 h2
    have hfind : findClosestPoint (f :: rest) t =
        (f :: rest).find? (fun p => decide (jsAbs (p.t_ms - t) < 25)) := by
      rw [findClosestPoint, if_neg h1, if_neg h2]
    constructor
    · rw [hfind]
      simp [List.find?_eq_none]
    · intro q hq
      rw [hfind] at hq
      rcases find?_first _ _ _ hq with ⟨hqt, pre, post, hsplit, hpre⟩
      refine ⟨by simpa using hqt, pre, post, hsplit, ?_⟩
      intro p hp
      have := hpre p hp
      simpa using this
  · exact hout pointC4a [pointC4b, pointC4c] 300
      (by norm_num [List.getLast, pointC4c])
  · show findClosestPoint (pointC4a :: [pointC4b, pointC4c]) 210 = some pointC4c
    rw [findClosestPoint]
    rw [if_neg (by norm_num [pointC4a] : ¬ (210 : ℚ) < pointC4a.t_ms - 50)]
    rw [if_neg (by norm_num [List.getLast, pointC4c] :
      ¬ (210 : ℚ) > ((pointC4a :: [pointC4b, pointC4c]).getLast
        (List.cons_ne_nil pointC4a [pointC4b, pointC4c])).t_ms + 50)]
    rw [List.find?_cons_of_neg [pointC4b, pointC4c]
      (by simp only [pointC4a, jsAbs_eq_abs, decide_eq_true_eq]; norm_num)]
    rw [List.find?_cons_of_neg [pointC4c]
      (by simp only [pointC4b, jsAbs_eq_abs, decide_eq_true_eq]; norm_num)]
    rw [List.find?_cons_of_pos []
      (by simp only [pointC4c, jsAbs_eq_abs]; norm_num)]

/-- Witness discharging the hypotheses of C4 at a concrete input: target −100
is more than 50 ms before the first sample (time 0), so the resolver rejects
it. -/
theorem findClosestPoint_spec_witness :
    ((-100 : ℚ) < pointC4a.t_ms - 50) ∧
    findClosestPoint seriesC4 (-100) = none :=
  ⟨by norm_num [pointC4a],
   findClosestPoint_spec.2.1 pointC4a [pointC4b, pointC4c] (-100) (by norm_num [pointC4a])⟩

/- ### Claim C5 -/

/-- Claim C5: for a requested phase name, no marker is emitted when no stance
of either foot carries that phase; otherwise a single marker is produced whose
`start` is the minimum of `event.ic_ts_ms − globalZero` and whose `stop` (the
`end` field) is the maximum of `event.to_ts_ms − globalZero`, both over the
matching stances (each assumed to have a matching event, as the claim's
formula presupposes).  Concretely, two FFC stances with offset windows
[50, 90] and [70, 110] yield the single marker [50, 110]. -/
theorem phaseMarker_bounds :
    (∀ (phaseName color : String) (stancesAll : List StanceMetric) (emap : EventsMap) (z : ℚ),
      (stancesAll.filter (fun s => s.phase == phaseName) = [] →
        phaseMarker phaseName color stancesAll emap z = none) ∧
      (stancesAll.filter (fun s => s.phase == phaseName) ≠ [] →
        ∃ mk, phaseMarker phaseName color stancesAll emap z = some mk) ∧
      (∀ mk, phaseMarker phaseName color stancesAll emap z = some mk →
        (∀ s ∈ stancesAll.filter (fun s => s.phase == phaseName),
          (mapGet emap s.stance_id).isSome = true) →
        ((∃ s ∈ stancesAll.filter (fun s => s.phase == phaseName), ∃ e : ContactEvent,
            mapGet emap s.stance_id = some e ∧ mk.start = e.ic_ts_ms - z) ∧
         (∀ s ∈ stancesAll.filter (fun s => s.phase == phaseName), ∀ e : ContactEvent,
            mapGet emap s.stance_id = some e → mk.start ≤ e.ic_ts_ms - z) ∧
         (∃ s ∈ stancesAll.filter (fun s => s.phase == phaseName), ∃ e : ContactEvent,
            mapGet emap s.stance_id = some e ∧ mk.stop = e.to_ts_ms - z) ∧
         (∀ s ∈ stancesAll.filter (fun s => s.phase == phaseName), ∀ e : ContactEvent,
            mapGet emap s.stance_id = some e → e.to_ts_ms - z ≤ mk.stop)))) ∧
    phaseMarker "FFC" "#2196F3" stancesC5 (buildEventsMap eventsC5) 1000 = some markerC5 := by
  constructor
  · intro phaseName color stancesAll emap z
    refine ⟨?_, ?_, ?_⟩
    · intro h
      simp only [phaseMarker, h]
    · intro h
      cases hfil : stancesAll.filter (fun s => s.phase == phaseName) with
      | nil => exact absurd hfil h
      | cons m ms =>
        refine ⟨PhaseMarker.mk phaseName
          ((ms.map (phaseStartTime emap z)).foldl min (phaseStartTime emap z m))
          ((ms.map (phaseEndTime emap z)).foldl max (phaseEndTime emap z m)) color, ?_⟩
        simp only [phaseMarker, hfil]
    · intro mk hmk hev
      cases hfil : stancesAll.filter (fun s => s.phase == phaseName) with
      | nil =>
        simp only [phaseMarker, hfil] at hmk
        exact Option.noConfusion hmk
      | cons m ms =>
        simp only [phaseMarker, hfil] at hmk
        injection hmk with hmk
        subst hmk
        rw [hfil] at hev
        have hstart : ∀ s ∈ m :: ms, ∀ e : ContactEvent, mapGet emap s.stance_id = some e →
            phaseStartTime emap z s = e.ic_ts_ms - z := by
          intro s _ e he
          simp [phaseStartTime, he]
        have hstop : ∀ s ∈ m :: ms, ∀ e : ContactEvent, mapGet emap s.stance_id = some e →
            phaseEndTime emap z s = e.to_ts_ms - z := by
          intro s _ e he
          simp [phaseEndTime, he]
        have hsome : ∀ s ∈ m :: ms, ∃ e : ContactEvent, mapGet emap s.stance_id = some e := by
          intro s hs
          exact Option.isSome_iff_exists.mp (hev s (hfil ▸ hs))
        refine ⟨?_, ?_, ?_, ?_⟩
        · rcases foldl_min_mem (ms.map (phaseStartTime emap z)) (phaseStartTime emap z m)
            with h | h
          · rcases hsome m (List.mem_cons_self m ms) with ⟨e, he⟩
            refine ⟨m, List.mem_cons_self m ms, e, he, ?_⟩
            show (ms.map (phaseStartTime emap z)).foldl min (phaseStartTime emap z m) = _
            rw [h]
            exact hstart m (List.mem_cons_self m ms) e he
          · rcases List.mem_map.mp h with ⟨s, hs, hse⟩
            have hs' : s ∈ m :: ms := List.mem_cons_of_mem m hs
            rcases hsome s hs' with ⟨e, he⟩
            refine ⟨s, hs', e, he, ?_⟩
            show (ms.map (phaseStartTime emap z)).foldl min (phaseStartTime emap z m) = _
            rw [← hse]
            exact hstart s hs' e he
        · intro s hs e he
          show (ms.map (phaseStartTime emap z)).foldl min (phaseStartTime emap z m) ≤ _
          rw [← hstart s hs e he]
          rcases List.mem_cons.mp hs with h | h
          · subst h
            exact foldl_min_le_init _ _
          · exact foldl_min_le_mem _ _ _ (List.mem_map.mpr ⟨s, h, rfl⟩)
        · rcases foldl_max_mem (ms.map (phaseEndTime emap z)) (phaseEndTime emap z m)
            with h | h
          · rcases hsome m (List.mem_cons_self m ms) with ⟨e, he⟩
            refine ⟨m, List.mem_cons_self m ms, e, he, ?_⟩
            show (ms.map (phaseEndTime emap z)).foldl max (phaseEndTime emap z m) = _
            rw [h]
            exact hstop m (List.mem_cons_self m ms) e he
          · rcases List.mem_map.mp h with ⟨s, hs, hse⟩
            have hs' : s ∈ m :: ms := List.mem_cons_of_mem m hs
            rcases hsome s hs' with ⟨e, he⟩
            refine ⟨s, hs', e, he, ?_⟩
            show (ms.map (phaseEndTime emap z)).foldl max (phaseEndTime emap z m) = _
            rw [← hse]
            exact hstop s hs' e he
        · intro s hs e he
          show _ ≤ (ms.map (phaseEndTime emap z)).foldl max (phaseEndTime emap z m)
          rw [← hstop s hs e he]
          rcases List.mem_cons.mp hs with h | h
          · subst h
            exact foldl_max_init_le _ _
          · exact foldl_max_mem_le _ _ _ (List.mem_map.mpr ⟨s, h, rfl⟩)
  · norm_num +decide [phaseMarker, phaseStartTime, phaseEndTime, mapGet, buildEventsMap,
      mapSet, stancesC5, eventsC5, markerC5, min_def, max_def]

/-- Witness for C5 at the concrete scenario: the FFC filter is non-empty, every
matching stance has an event, and the emitted marker [50, 110] attains and
bounds the offset windows. -/
theorem phaseMarker_bounds_witness :
    phaseMarker "FFC" "#2196F3" stancesC5 (buildEventsMap eventsC5) 1000 = some markerC5 ∧
    (∀ s ∈ stancesC5.filter (fun s => s.phase == "FFC"),
      (mapGet (buildEventsMap eventsC5) s.stance_id).isSome = true) ∧
    ((∃ s ∈ stancesC5.filter (fun s => s.phase == "FFC"), ∃ e : ContactEvent,
        mapGet (buildEventsMap eventsC5) s.stance_id = some e ∧
        markerC5.start = e.ic_ts_ms - 1000) ∧
     (∀ s ∈ stancesC5.filter (fun s => s.phase == "FFC"), ∀ e : ContactEvent,
        mapGet (buildEventsMap eventsC5) s.stance_id = some e →
        markerC5.start ≤ e.ic_ts_ms - 1000) ∧
     (∃ s ∈ stancesC5.filter (fun s => s.phase == "FFC"), ∃ e : ContactEvent,
        mapGet (buildEventsMap eventsC5) s.stance_id = some e ∧
        markerC5.stop = e.to_ts_ms - 1000) ∧
     (∀ s ∈ stancesC5.filter (fun s => s.phase == "FFC"), ∀ e : ContactEvent,
        mapGet (buildEventsMap eventsC5) s.stance_id = some e →
        e.to_ts_ms - 1000 ≤ markerC5.stop)) := by
  have hmk : phaseMarker "FFC" "#2196F3" stancesC5 (buildEventsMap eventsC5) 1000 =
      some markerC5 := phaseMarker_bounds.2
  have hev : ∀ s ∈ stancesC5.filter (fun s => s.phase == "FFC"),
      (mapGet (buildEventsMap eventsC5) s.stance_id).isSome = true := by decide
  exact ⟨hmk, hev,
    (phaseMarker_bounds.1 "FFC" "#2196F3" stancesC5 (buildEventsMap eventsC5) 1000).2.2
      markerC5 hmk hev⟩

/- ### Claim C8 -/

theorem regionSum_go (sensors : List (String × ℚ)) :
    ∀ (channels : List String) (a : ℚ),
      channels.foldl (fun acc ch => acc + ((recordGet sensors ch).getD 0)) a =
      a + (channels.map (fun ch => (recordGet sensors ch).getD 0)).sum := by
  intro channels
  induction channels with
  | nil => intro a; simp
  | cons c cs ih =>
    intro a
    rw [List.foldl_cons, ih, List.map_cons, List.sum_cons]
    ring

theorem recordGet_skip {α : Type} (s₁ s₂ : List (String × α)) (c ch : String) (v : α)
    (h : ch ≠ c) : recordGet (s₁ ++ (c, v) :: s₂) ch = recordGet (s₁ ++ s₂) ch := by
  rw [recordGet, recordGet, List.find?_append, List.find?_append,
    List.find?_cons_of_neg s₂ (by simpa using fun he => h he.symm)]

/-- Claim C8: a region's aggregated value is the sum of the magnitudes of
exactly that region's configured channels, with channels absent from the sample
contributing zero (for ForeFoot this is the hardcoded `S1 + S2` of the
regional-timeline charts), and adding a channel that is not in the region's
configuration to a sample leaves the region's value unchanged. -/
theorem regionSum_configured_channels :
    (∀ region ∈ SENSOR_REGIONS, ∀ sensors : List (String × ℚ),
      regionSum sensors region.2 =
        (region.2.map (fun ch => (recordGet sensors ch).getD 0)).sum) ∧
    (∀ sensors : List (String × ℚ),
      regionSum sensors ["S1", "S2"] =
        (recordGet sensors "S1").getD 0 + (recordGet sensors "S2").getD 0) ∧
    (∀ region ∈ SENSOR_REGIONS, ∀ (s₁ s₂ : List (String × ℚ)) (c : String) (v : ℚ),
      c ∉ region.2 →
      regionSum (s₁ ++ (c, v) :: s₂) region.2 = regionSum (s₁ ++ s₂) region.2) := by
  refine ⟨?_, ?_, ?_⟩
  · intro region _ sensors
    rw [regionSum, regionSum_go]
    ring
  · intro sensors
    rw [regionSum, regionSum_go]
    simp [add_assoc]
  · intro region _ s₁ s₂ c v hc
    rw [regionSum, regionSum, regionSum_go, regionSum_go]
    congr 1
    congr 1
    apply List.map_congr_left
    intro ch hch
    rw [recordGet_skip s₁ s₂ c ch v (fun he => hc (he ▸ hch))]

/-- Witness for C8 with the ForeFoot region on a concrete sample: the sum is
exactly over S1 and S2 (value 12), and appending the unconfigured channel S9
changes nothing. -/
theorem regionSum_configured_channels_witness :
    (("ForeFoot", ["S1", "S2"]) ∈ SENSOR_REGIONS) ∧
    regionSum sensorsC8 ["S1", "S2"] =
      ((["S1", "S2"] : List String).map (fun ch => (recordGet sensorsC8 ch).getD 0)).sum ∧
    ("S9" ∉ (["S1", "S2"] : List String)) ∧
    regionSum (sensorsC8 ++ ("S9", (100 : ℚ)) :: []) ["S1", "S2"] =
      regionSum (sensorsC8 ++ []) ["S1", "S2"] ∧
    regionSum sensorsC8 ["S1", "S2"] = 12 :=
  ⟨by decide,
   regionSum_configured_channels.1 ("ForeFoot", ["S1", "S2"]) (by decide) sensorsC8,
   by decide,
   regionSum_configured_channels.2.2 ("ForeFoot", ["S1", "S2"]) (by decide) sensorsC8 []
     "S9" 100 (by decide),
   by norm_num +decide [regionSum, recordGet, sensorsC8]⟩

/- ### Claim C9 -/

/-- Claim C9: a scrub always leaves the clock Stopped with the cursor at the
scrubbed time (which the range input constrains to [0, maxTime], so it equals
the clamp of t to that interval), and no autoplay tick — however many frames
are scheduled afterwards — moves the cursor or restarts playback until play is
pressed again. -/
theorem scrub_stops_and_clamps (s : ClockState) (t maxT : ℚ) (h0 : 0 ≤ t) (h1 : t ≤ maxT) :
    (scrub s t).isPlaying = false ∧
    (scrub s t).currentTime = max 0 (min t maxT) ∧
    ∀ deltas : List ℚ, deltas.foldl (tick maxT) (scrub s t) = scrub s t := by
  refine ⟨rfl, ?_, ?_⟩
  · show t = max 0 (min t maxT)
    rw [min_eq_left h1, max_eq_right h0]
  · have hstep : ∀ d, tick maxT (scrub s t) d = scrub s t := by
      intro d
      simp [tick, scrub]
    intro deltas
    induction deltas with
    | nil => rfl
    | cons d ds ih =>
      rw [List.foldl_cons, hstep d, ih]

/-- Witness for C9: scrubbing a playing clock (cursor 500) to 300 with
maxTime 1000 stops it, sets the cursor to the clamped 300, and keeps it there
under any sequence of ticks. -/
theorem scrub_stops_and_clamps_witness :
    (0 : ℚ) ≤ 300 ∧ (300 : ℚ) ≤ 1000 ∧
    ((scrub clockC9 300).isPlaying = false ∧
     (scrub clockC9 300).currentTime = max 0 (min 300 1000) ∧
     ∀ deltas : List ℚ, deltas.foldl (tick 1000) (scrub clockC9 300) = scrub clockC9 300) :=
  ⟨by norm_num, by norm_num,
   scrub_stops_and_clamps clockC9 300 1000 (by norm_num) (by norm_num)⟩
